import Mathlib

/-!
# Verification of the trade-mirroring core of `satta-backend`

This file gives a shallow embedding, in Lean 4, of the trade-mirroring
pipeline of the repository: the brokerage payload parser
(`app/services/zerodha.py`, `ZerodhaService.parse_trade`), the position
sizing engine and the mirror trade orchestrator
(`app/services/trade_executor.py`, `TradeExecutor`), the per-leader
polling job (`app/worker/tasks.py`, `poll_user_trades`), the group-trade
notification fan-out (`app/services/notification.py`) and the websocket
connection registry (`app/services/websocket.py`, `WebSocketManager`).

Following the specification, the persistence layer is treated as a
repository-style store: database rows become Lean structures, queries
become functions supplied by an environment record, and the committed
state of the store is threaded explicitly.  Machine integers are modelled
as `Int`, Python floats as `ℚ`, and fallible operations return `Option`
or `Except`.  Where the SQLAlchemy model files and the service code
disagree about which attributes exist (a real inconsistency of the
repository), the embedded record carries the attributes the service code
reads, and the attribute lists of the model files are embedded separately
so that the mismatch itself can be stated and proved.
-/

/-- `TradeSide` enum from `app/models/trade.py`. -/
inductive TradeSide
  | BUY
  | SELL
deriving DecidableEq, Repr

/-- `TradeStatus` enum from `app/models/trade.py`. -/
inductive TradeStatus
  | PENDING
  | OPEN
  | COMPLETE
  | CANCELLED
  | REJECTED
deriving DecidableEq, Repr

/-- `TradeType` enum from `app/models/trade.py`. -/
inductive TradeType
  | REGULAR
  | CO
  | OCO
  | BRACKET
  | COVER
deriving DecidableEq, Repr

/-- A row of the `trades` table (`app/models/trade.py`, class `Trade`),
restricted to the columns the mirroring pipeline reads or writes.
`executed_at` timestamps are abstracted as integers. -/
structure TradeRec where
  id : Int := 0
  leader_id : Int
  follower_id : Option Int := none
  group_id : Int
  parent_trade_id : Option Int := none
  zerodha_order_id : String
  symbol : String
  side : TradeSide
  quantity : Int
  price : Option ℚ := none
  trade_type : Option TradeType := none
  status : TradeStatus
  trigger_price : Option ℚ := none
  executed_at : Option Int := none
deriving DecidableEq, Repr

/-- The result of `ZerodhaService.parse_trade`: a freshly constructed
`Trade` object before persistence.  `poll_user_trades` sets `leader_id`
on it after parsing, so the field is carried here with a default. -/
structure ParsedTrade where
  zerodha_order_id : String
  symbol : String
  side : TradeSide
  quantity : Int
  price : Option ℚ
  status : TradeStatus
  executed_at : Int
  trigger_price : Option ℚ
  leader_id : Int := 0
deriving DecidableEq, Repr

/-- A raw Zerodha order payload as consumed by `parse_trade`
(`app/services/zerodha.py`).  An outer `none` models a missing
dictionary key (Python raises `KeyError` on `order_data[...]`); for the
nullable numeric fields the inner `Option` models a present-but-`None`
value.  `order_timestamp`'s inner `none` models a string
`datetime.fromisoformat` cannot parse. -/
structure RawOrder where
  order_id : Option String := none
  tradingsymbol : Option String := none
  transaction_type : Option String := none
  quantity : Option Int := none
  average_price : Option (Option ℚ) := none
  price : Option (Option ℚ) := none
  status : Option String := none
  order_timestamp : Option (Option Int) := none
  trigger_price : Option ℚ := none
deriving DecidableEq, Repr

/-- Python truthiness of an optional float: `None` and `0.0` are falsy. -/
def truthyQ : Option ℚ → Bool
  | some v => v != 0
  | none => false

/-- The price expression of `parse_trade`:
`float(order_data["average_price"] or order_data["price"])`.
`av` is the (present) `average_price` value; when it is falsy the
`price` key is read (outer `none` = missing key, raising) and `float`
of a `None` value raises (`inner` none). -/
def parsePrice (av : Option ℚ) (priceField : Option (Option ℚ)) : Option ℚ :=
  if truthyQ av then av else priceField.bind id

/-- `ZerodhaService.parse_trade` (`app/services/zerodha.py` lines 96-114).
Any failure inside the `try` block (missing key, `float(None)`,
unparseable timestamp) is caught and yields `none`.
`price` is `float(order_data["average_price"] or order_data["price"])`:
if `average_price` is truthy it is used and the `price` key is not even
read; otherwise `order_data["price"]` is read (failing if missing) and
`float` of it fails when it is `None`.  The status is collapsed:
`COMPLETE` maps to `COMPLETE`, every other status string maps to `OPEN`.
`trigger_price` is read with `.get` and kept only when truthy. -/
def parse_trade (o : RawOrder) : Option ParsedTrade := do
  let oid ← o.order_id
  let sym ← o.tradingsymbol
  let tt ← o.transaction_type
  let qty ← o.quantity
  let av ← o.average_price
  let priceVal ← parsePrice av o.price
  let st ← o.status
  let tsField ← o.order_timestamp
  let ts ← tsField
  pure { zerodha_order_id := oid
         symbol := sym
         side := if tt == "BUY" then TradeSide.BUY else TradeSide.SELL
         quantity := qty
         price := some priceVal
         status := if st == "COMPLETE" then TradeStatus.COMPLETE else TradeStatus.OPEN
         executed_at := ts
         trigger_price := if truthyQ o.trigger_price then o.trigger_price else none }

/-- Python's `int()` applied to a float: truncation toward zero. -/
def pyInt (x : ℚ) : Int := if 0 ≤ x then ⌊x⌋ else ⌈x⌉

/-- `TradeExecutor._calculate_position_size`
(`app/services/trade_executor.py` lines 105-107):
`int(leader_quantity * risk_factor)`.  The exact product
`leader_quantity * risk_factor` is built with `mkRat` so that concrete
instances reduce inside the kernel; `calculate_position_size_eq` below
proves it equal to `pyInt` of the ordinary product `(q : ℚ) * r`. -/
def calculate_position_size (leader_quantity : Int) (risk_factor : ℚ) : Int :=
  pyInt (mkRat (leader_quantity * risk_factor.num) risk_factor.den)

/-- The `mkRat` rendering of the product in `calculate_position_size`
is exactly the rational product. -/
theorem mkRat_num_den_mul (q : Int) (r : ℚ) :
    mkRat (q * r.num) r.den = (q : ℚ) * r := by
  rw [Rat.mkRat_eq_div]
  push_cast
  rw [mul_div_assoc, Rat.num_div_den]

/-- `calculate_position_size` is Python `int()` of the exact product. -/
theorem calculate_position_size_eq (q : Int) (r : ℚ) :
    calculate_position_size q r = pyInt ((q : ℚ) * r) := by
  rw [calculate_position_size, mkRat_num_den_mul]

/-- The Python expression `member.risk_factor or 1.0`
(`app/services/trade_executor.py` line 49): both `None` and `0.0` are
falsy and fall back to `1.0`. -/
def riskOr1 : Option ℚ → ℚ
  | some v => if v = 0 then 1 else v
  | none => 1

/-- A row of the `groups` table (`app/models/group.py`, class `Group`),
restricted to what the pipeline reads. -/
structure GroupRec where
  id : Int
  is_active : Bool
deriving DecidableEq, Repr

/-- A `group_members` row as *read by* `TradeExecutor.execute_mirror_trades`
(`app/services/trade_executor.py` lines 26-29 and 46-50): the executor
filters on a `status` string column and reads a `risk_factor` float.
`role` is the column the model file actually declares for membership
role.  The SQLAlchemy model (`app/models/group.py`, `GroupMember`)
declares neither `status` nor `risk_factor`; its attribute list is
embedded below as `groupMemberModelAttrs` so that this mismatch can be
stated. -/
structure GroupMemberRec where
  user_id : Int
  role : String
  status : String
  risk_factor : Option ℚ
deriving DecidableEq, Repr

/-- A `users` row restricted to what the pipeline reads
(`app/models/user.py`, class `User`). -/
structure UserRec where
  id : Int
  name : String
  zerodha_access_token : Option String
deriving DecidableEq, Repr

/-- A durable notification row (`app/models/notification.py`). -/
structure NotificationRec where
  user_id : Int
  type : String
  group_id : Option Int := none
deriving DecidableEq, Repr

/-- Outcome of `zerodha_service.place_order` for one follower:
a broker order id, a falsy order id (`if not order_id` in
`trade_executor.py` line 67), or a raised exception (caught by the
per-member handler at line 95). -/
inductive OrderOutcome
  | ok (order_id : String)
  | rejected
  | exn
deriving DecidableEq, Repr

/-- Read-only environment of one orchestrator invocation: the repository
queries `execute_mirror_trades` performs, the brokerage boundary, and
the clock (`datetime.utcnow()` abstracted as an integer). -/
structure ExecEnv where
  findGroup : Int → Option GroupRec
  members : Int → List GroupMemberRec
  findUser : Int → Option UserRec
  placeOrder : Int → OrderOutcome
  now : Int

/-- Committed state of the persistent store plus the pub/sub effect log.
`publishes` records `(channel, message type)` pairs in order;
`nextId` models primary-key assignment at insert. -/
structure Store where
  trades : List TradeRec
  publishes : List (String × String)
  notifications : List NotificationRec
  nextId : Int
deriving DecidableEq, Repr

/-- The empty store. -/
def Store.empty : Store := { trades := [], publishes := [], notifications := [], nextId := 1 }

/-- The redis channel name used by both the executor and the polling
task: `"group:" + group_id`. -/
def groupChannel (gid : Int) : String := "group:" ++ toString gid

/-- The dedup query of the pipeline:
`db.query(Trade).filter(Trade.zerodha_order_id == x).first()` is truthy,
i.e. some persisted trade carries broker order id `x`. -/
def hasOid (s : Store) (x : String) : Bool :=
  s.trades.any (fun t0 => t0.zerodha_order_id == x)

/-- The number of persisted trades carrying broker order id `x`. -/
def oidCount (s : Store) (x : String) : Nat :=
  (s.trades.filter (fun t0 => t0.zerodha_order_id == x)).length

/-- `db.add(trade); db.commit()` against the `trades` table, whose
`zerodha_order_id` column carries a unique constraint
(`app/models/trade.py` line 40): inserting a row whose broker order id
is already present fails (`none`, modelling the raised `IntegrityError`);
otherwise the row is appended with a fresh primary key. -/
def insertTrade (s : Store) (t : TradeRec) : Option (Store × TradeRec) :=
  if hasOid s t.zerodha_order_id then none
  else
    let inserted := { t with id := s.nextId }
    some ({ s with trades := s.trades ++ [inserted], nextId := s.nextId + 1 }, inserted)

/-- The members query of `execute_mirror_trades`
(`app/services/trade_executor.py` lines 26-29): all `group_members`
rows of the group with `status == "ACTIVE"`. -/
def activeMembers (env : ExecEnv) (gid : Int) : List GroupMemberRec :=
  (env.members gid).filter (fun m => m.status == "ACTIVE")

/-- The mirror `Trade` constructed for one follower
(`app/services/trade_executor.py` lines 72-86). -/
def mkMirrorTrade (env : ExecEnv) (lt : TradeRec) (m : GroupMemberRec)
    (quantity : Int) (oid : String) : TradeRec :=
  { leader_id := lt.leader_id
    follower_id := some m.user_id
    group_id := lt.group_id
    parent_trade_id := some lt.id
    zerodha_order_id := oid
    symbol := lt.symbol
    side := lt.side
    quantity := quantity
    price := lt.price
    trade_type := lt.trade_type
    status := TradeStatus.PENDING
    trigger_price := lt.trigger_price
    executed_at := some env.now }

/-- One iteration of the follower loop of `execute_mirror_trades`
(`app/services/trade_executor.py` lines 34-97).  The accumulator is the
store plus the `mirror_trades` list built so far.  Every failure path of
the body — leader row, missing user or token, zero quantity, falsy order
id, raised exception (caught by the per-member `except` at line 95,
including an `IntegrityError` from the mirror commit) — falls through to
`continue`, leaving the accumulator unchanged.  On success the mirror
trade is committed, one `mirror_trade` message is published on the
group channel (`_broadcast_mirror_trade`, lines 109-131), and the trade
is appended to `mirror_trades`. -/
def memberStep (env : ExecEnv) (lt : TradeRec)
    (acc : Store × List TradeRec) (m : GroupMemberRec) : Store × List TradeRec :=
  let (st, ms) := acc
  if m.user_id == lt.leader_id then acc
  else
    match env.findUser m.user_id with
    | none => acc
    | some u =>
      match u.zerodha_access_token with
      | none => acc
      | some _ =>
        let quantity := calculate_position_size lt.quantity (riskOr1 m.risk_factor)
        if quantity == 0 then acc
        else
          match env.placeOrder m.user_id with
          | OrderOutcome.exn => acc
          | OrderOutcome.rejected => acc
          | OrderOutcome.ok oid =>
            match insertTrade st (mkMirrorTrade env lt m quantity oid) with
            | none => acc
            | some (st1, inserted) =>
              let st2 := { st1 with
                publishes := st1.publishes ++ [(groupChannel lt.group_id, "mirror_trade")] }
              (st2, ms ++ [inserted])

/-- The follower loop itself: a left fold of `memberStep` over the
queried members. -/
def runMembers (env : ExecEnv) (lt : TradeRec) (st : Store)
    (ms : List GroupMemberRec) : Store × List TradeRec :=
  ms.foldl (memberStep env lt) (st, [])

/-- `TradeExecutor.execute_mirror_trades`
(`app/services/trade_executor.py` lines 15-103): load the group; if it
is absent or inactive return the empty list (logged, no exception to the
caller); otherwise run the follower loop over the `status == "ACTIVE"`
members and return the created mirror trades together with the updated
store. -/
def execute_mirror_trades (env : ExecEnv) (lt : TradeRec) (st : Store) :
    List TradeRec × Store :=
  match env.findGroup lt.group_id with
  | none => ([], st)
  | some g =>
    if !g.is_active then ([], st)
    else
      let (st1, mirrors) := runMembers env lt st (activeMembers env g.id)
      (mirrors, st1)

/-- The order-placement attempts one member gives rise to: the
`zerodha_service.place_order` call at `trade_executor.py` line 58 is
reached exactly when the member is not the leader, the user row and its
access token exist, and the computed quantity is nonzero.  The attempt
is recorded as `(follower user id, quantity)`.  This is state
independent: eligibility depends only on the environment, the leader
trade and the member row. -/
def memberAttempts (env : ExecEnv) (lt : TradeRec) (m : GroupMemberRec) :
    List (Int × Int) :=
  if m.user_id == lt.leader_id then []
  else
    match env.findUser m.user_id with
    | none => []
    | some u =>
      match u.zerodha_access_token with
      | none => []
      | some _ =>
        let quantity := calculate_position_size lt.quantity (riskOr1 m.risk_factor)
        if quantity == 0 then [] else [(m.user_id, quantity)]

/-- Environment of one `poll_user_trades` run
(`app/worker/tasks.py` lines 32-117).  `exec` supplies the repository
and brokerage boundary shared with the orchestrator; `ledGroups` models
the `user.led_groups` iteration at line 63.  The `User` model declares
no `led_groups` relationship (see `userModelAttrs` and claim C5); the
function here models the groups the user leads as the spec describes
them. -/
structure PollEnv where
  exec : ExecEnv
  ledGroups : Int → List GroupRec

/-- The leader `Trade` row built for one group
(`app/worker/tasks.py` lines 68-80): no `parent_trade_id`, no
`follower_id`, all other fields copied from the parsed trade. -/
def mkGroupTrade (pt : ParsedTrade) (g : GroupRec) : TradeRec :=
  { leader_id := pt.leader_id
    group_id := g.id
    zerodha_order_id := pt.zerodha_order_id
    symbol := pt.symbol
    side := pt.side
    quantity := pt.quantity
    price := pt.price
    status := pt.status
    trigger_price := pt.trigger_price
    executed_at := some pt.executed_at }

/-- The `for group in user.led_groups` loop of `poll_user_trades`
(`app/worker/tasks.py` lines 62-113) for one new parsed trade: skip
inactive groups; for an active group insert the leader row (the commit
raises when the unique `zerodha_order_id` constraint is violated — the
exception escapes the loop to the task-level handler, modelled by the
`true` flag), run the orchestrator synchronously on the inserted row,
then publish one `trade` message on the group channel. -/
def processGroups (env : PollEnv) (pt : ParsedTrade) :
    Store → List GroupRec → Store × Bool
  | st, [] => (st, false)
  | st, g :: gs =>
    if !g.is_active then processGroups env pt st gs
    else
      match insertTrade st (mkGroupTrade pt g) with
      | none => (st, true)
      | some (st1, inserted) =>
        let st2 := (execute_mirror_trades env.exec inserted st1).2
        let st3 := { st2 with publishes := st2.publishes ++ [(groupChannel g.id, "trade")] }
        processGroups env pt st3 gs

/-- The `for trade_data in trades_data` loop of `poll_user_trades`
(`app/worker/tasks.py` lines 48-113): parse each raw payload (skipping
unparseable ones), stamp the polled user as leader, skip the trade when
a row with the same `zerodha_order_id` is already persisted (lines
55-60), and otherwise process the user's led groups.  An exception from
the group loop aborts the remaining trades (flag `true`), reaching the
task-level `except` which schedules a retry. -/
def processTrades (env : PollEnv) (user : UserRec) :
    Store → List RawOrder → Store × Bool
  | st, [] => (st, false)
  | st, od :: rest =>
    match parse_trade od with
    | none => processTrades env user st rest
    | some pt0 =>
      let pt := { pt0 with leader_id := user.id }
      if hasOid st pt.zerodha_order_id then
        processTrades env user st rest
      else
        match processGroups env pt st (env.ledGroups user.id) with
        | (st1, true) => (st1, true)
        | (st1, false) => processTrades env user st1 rest

/-- `poll_user_trades` (`app/worker/tasks.py` lines 32-117) for one
cycle: load the user; if absent or without a Zerodha access token do
nothing; otherwise process the fetched remote order list.  The `Bool`
is `true` when an exception escaped to the task handler (which retries
with fixed delay, max 3 attempts). -/
def poll_user_trades (env : PollEnv) (uid : Int) (remote : List RawOrder)
    (st : Store) : Store × Bool :=
  match env.exec.findUser uid with
  | none => (st, false)
  | some u =>
    match u.zerodha_access_token with
    | none => (st, false)
    | some _ => processTrades env u st remote

/-- `NotificationService.create_group_trade_notification`
(`app/services/notification.py` lines 101-134): one durable
`GROUP_TRADE` notification row per group member other than the leader
(no activity filter in its query).  No code in the polling/mirroring
pipeline invokes it — see claim C4. -/
def create_group_trade_notification (members : List GroupMemberRec)
    (group_id leader_id : Int) : List NotificationRec :=
  (members.filter (fun m => m.user_id != leader_id)).map
    (fun m => { user_id := m.user_id, type := "GROUP_TRADE", group_id := some group_id })

/-- Attributes declared by the SQLAlchemy `GroupMember` model
(`app/models/group.py` lines 28-40): columns `id`, `group_id`,
`user_id`, `role`, `is_active`, `joined_at` and relationships `group`,
`user`.  Accessing any other attribute on the class or an instance
raises `AttributeError` at runtime. -/
def groupMemberModelAttrs : List String :=
  ["id", "group_id", "user_id", "role", "is_active", "joined_at", "group", "user"]

/-- Attributes declared by the SQLAlchemy `User` model
(`app/models/user.py`): columns and relationships.  There is no
`led_groups` relationship. -/
def userModelAttrs : List String :=
  ["id", "email", "password", "name", "zerodha_user_id", "zerodha_access_token",
   "zerodha_refresh_token", "zerodha_token_expiry", "is_active", "is_superuser",
   "preferences", "groups", "trades", "followed_trades", "notifications",
   "notification_preferences"]

/-- The in-process websocket registry of `WebSocketManager`
(`app/services/websocket.py`): `active_connections` maps a user id to
the set of live websocket handles.  Handles are abstracted as integers;
the Python `set` is modelled as a duplicate-free list. -/
structure WSRegistry where
  active_connections : List (Int × List Int)
deriving DecidableEq, Repr

/-- `WebSocketManager.disconnect` (`app/services/websocket.py` lines
16-20): if the user id has an entry, call `set.remove(websocket)` —
which raises `KeyError` when the handle is not in the set — and delete
the user's entry when the set becomes empty.  If the user id has no
entry the call is a no-op. -/
def disconnect (reg : WSRegistry) (websocket : Int) (user_id : Int) :
    Except String WSRegistry :=
  match reg.active_connections.find? (fun p => p.1 == user_id) with
  | none => Except.ok reg
  | some (_, conns) =>
    if conns.contains websocket then
      let conns1 := conns.erase websocket
      if conns1.isEmpty then
        Except.ok ⟨reg.active_connections.filter (fun p => p.1 != user_id)⟩
      else
        Except.ok ⟨reg.active_connections.map
          (fun p => if p.1 == user_id then (p.1, conns1) else p)⟩
    else Except.error "KeyError"

/-! ## Store and orchestrator helper lemmas -/

/-- Anatomy of a successful insert: the broker order id was fresh, the
row was appended with the next primary key, and nothing else changed. -/
theorem insertTrade_eq_some {s : Store} {t : TradeRec} {s1 : Store} {t1 : TradeRec}
    (h : insertTrade s t = some (s1, t1)) :
    hasOid s t.zerodha_order_id = false ∧
    t1 = { t with id := s.nextId } ∧
    s1 = { s with trades := s.trades ++ [t1], nextId := s.nextId + 1 } := by
  unfold insertTrade at h
  split at h
  · simp at h
  · next hx =>
    simp only [Option.some.injEq, Prod.mk.injEq] at h
    exact ⟨by simpa using hx, h.2.symm, by rw [← h.1, ← h.2]⟩

/-- Presence of a broker order id is preserved by appending rows. -/
theorem hasOid_append (tr d : List TradeRec) (x : String)
    (h : tr.any (fun t0 => t0.zerodha_order_id == x) = true) :
    (tr ++ d).any (fun t0 => t0.zerodha_order_id == x) = true := by
  rw [List.any_append, h]
  rfl

/-- A successful insert preserves presence and multiplicity of every
broker order id already in the store. -/
theorem insertTrade_oid_pres {s : Store} {t : TradeRec} {s1 : Store} {t1 : TradeRec}
    (h : insertTrade s t = some (s1, t1)) (x : String) (hx : hasOid s x = true) :
    hasOid s1 x = true ∧ oidCount s1 x = oidCount s x := by
  obtain ⟨hfresh, ht1, hs1⟩ := insertTrade_eq_some h
  have hoid1 : t1.zerodha_order_id = t.zerodha_order_id := by rw [ht1]
  have hne : (t1.zerodha_order_id == x) = false := by
    rw [hoid1]
    by_contra hcon
    rw [Bool.not_eq_false] at hcon
    have hxeq : t.zerodha_order_id = x := by simpa using hcon
    rw [← hxeq, hfresh] at hx
    exact absurd hx (by decide)
  subst hs1
  constructor
  · exact hasOid_append _ _ _ hx
  · simp [oidCount, List.filter_append, hne]

/-- Case analysis of one iteration of the follower loop: it either
leaves the accumulator unchanged (leader row, missing user or token,
zero quantity, rejected or failed order, failed commit) or commits the
mirror trade, publishes one `mirror_trade` message and appends the
inserted row to the mirror list. -/
theorem memberStep_cases (env : ExecEnv) (lt : TradeRec)
    (acc : Store × List TradeRec) (m : GroupMemberRec) :
    memberStep env lt acc m = acc ∨
    ∃ oid st1 inserted,
      env.placeOrder m.user_id = OrderOutcome.ok oid ∧
      (calculate_position_size lt.quantity (riskOr1 m.risk_factor) == 0) = false ∧
      insertTrade acc.1
        (mkMirrorTrade env lt m
          (calculate_position_size lt.quantity (riskOr1 m.risk_factor)) oid)
        = some (st1, inserted) ∧
      memberStep env lt acc m =
        ({ st1 with publishes :=
            st1.publishes ++ [(groupChannel lt.group_id, "mirror_trade")] },
         acc.2 ++ [inserted]) := by
  rcases acc with ⟨st, ms⟩
  cases hl : (m.user_id == lt.leader_id) with
  | true => exact Or.inl (by simp [memberStep, hl])
  | false =>
  cases hu : env.findUser m.user_id with
  | none => exact Or.inl (by simp [memberStep, hl, hu])
  | some u =>
  cases htok : u.zerodha_access_token with
  | none => exact Or.inl (by simp [memberStep, hl, hu, htok])
  | some tok =>
  cases hq : (calculate_position_size lt.quantity (riskOr1 m.risk_factor) == 0) with
  | true => exact Or.inl (by simp [memberStep, hl, hu, htok, hq])
  | false =>
  cases hord : env.placeOrder m.user_id with
  | exn => exact Or.inl (by simp [memberStep, hl, hu, htok, hq, hord])
  | rejected => exact Or.inl (by simp [memberStep, hl, hu, htok, hq, hord])
  | ok oid =>
  cases hins : insertTrade st
      (mkMirrorTrade env lt m
        (calculate_position_size lt.quantity (riskOr1 m.risk_factor)) oid) with
  | none => exact Or.inl (by simp [memberStep, hl, hu, htok, hq, hord, hins])
  | some p =>
    refine Or.inr ⟨oid, p.1, p.2, rfl, rfl, by simpa using hins, ?_⟩
    simp [memberStep, hl, hu, htok, hq, hord, hins]

/-- One follower iteration only appends to the committed trades. -/
theorem memberStep_trades_extends (env : ExecEnv) (lt : TradeRec)
    (acc : Store × List TradeRec) (m : GroupMemberRec) :
    ∃ d, (memberStep env lt acc m).1.trades = acc.1.trades ++ d := by
  rcases memberStep_cases env lt acc m with h | ⟨oid, st1, inserted, _, _, hins, h⟩
  · exact ⟨[], by rw [h]; simp⟩
  · obtain ⟨_, _, hs1⟩ := insertTrade_eq_some hins
    exact ⟨[inserted], by rw [h, hs1]⟩

/-- One follower iteration only appends to the mirror list. -/
theorem memberStep_mirrors_extends (env : ExecEnv) (lt : TradeRec)
    (acc : Store × List TradeRec) (m : GroupMemberRec) :
    ∃ d, (memberStep env lt acc m).2 = acc.2 ++ d := by
  rcases memberStep_cases env lt acc m with h | ⟨oid, st1, inserted, _, _, hins, h⟩
  · exact ⟨[], by rw [h]; simp⟩
  · exact ⟨[inserted], by rw [h]⟩

/-- One follower iteration never touches durable notifications. -/
theorem memberStep_notifications (env : ExecEnv) (lt : TradeRec)
    (acc : Store × List TradeRec) (m : GroupMemberRec) :
    (memberStep env lt acc m).1.notifications = acc.1.notifications := by
  rcases memberStep_cases env lt acc m with h | ⟨oid, st1, inserted, _, _, hins, h⟩
  · rw [h]
  · obtain ⟨_, _, hs1⟩ := insertTrade_eq_some hins
    rw [h, hs1]

/-- One follower iteration preserves presence and multiplicity of any
broker order id already persisted. -/
theorem memberStep_oid_pres (env : ExecEnv) (lt : TradeRec)
    (acc : Store × List TradeRec) (m : GroupMemberRec) (x : String)
    (hx : hasOid acc.1 x = true) :
    hasOid (memberStep env lt acc m).1 x = true ∧
    oidCount (memberStep env lt acc m).1 x = oidCount acc.1 x := by
  rcases memberStep_cases env lt acc m with h | ⟨oid, st1, inserted, _, _, hins, h⟩
  · rw [h]; exact ⟨hx, rfl⟩
  · obtain ⟨hp, hc⟩ := insertTrade_oid_pres hins x hx
    constructor
    · rw [h]; exact hp
    · rw [h]; exact hc

/-- One follower iteration publishes exactly one `mirror_trade` message
per mirror trade it creates: the publish log and the mirror list grow in
lockstep. -/
theorem memberStep_pub_mirror (env : ExecEnv) (lt : TradeRec)
    (acc : Store × List TradeRec) (m : GroupMemberRec) :
    (memberStep env lt acc m).1.publishes.length + acc.2.length =
      acc.1.publishes.length + (memberStep env lt acc m).2.length := by
  rcases memberStep_cases env lt acc m with h | ⟨oid, st1, inserted, _, _, hins, h⟩
  · rw [h]
  · obtain ⟨_, _, hs1⟩ := insertTrade_eq_some hins
    rw [h, hs1]
    simp
    omega

/-- `memberStep_trades_extends` lifted to the whole follower loop. -/
theorem foldMembers_trades_extends (env : ExecEnv) (lt : TradeRec) :
    ∀ (ms : List GroupMemberRec) (acc : Store × List TradeRec),
      ∃ d, (ms.foldl (memberStep env lt) acc).1.trades = acc.1.trades ++ d := by
  intro ms
  induction ms with
  | nil => exact fun acc => ⟨[], by simp⟩
  | cons m ms ih =>
    intro acc
    obtain ⟨d2, h2⟩ := ih (memberStep env lt acc m)
    obtain ⟨d1, h1⟩ := memberStep_trades_extends env lt acc m
    exact ⟨d1 ++ d2, by rw [List.foldl_cons, h2, h1, List.append_assoc]⟩

/-- `memberStep_notifications` lifted to the whole follower loop. -/
theorem foldMembers_notifications (env : ExecEnv) (lt : TradeRec) :
    ∀ (ms : List GroupMemberRec) (acc : Store × List TradeRec),
      (ms.foldl (memberStep env lt) acc).1.notifications = acc.1.notifications := by
  intro ms
  induction ms with
  | nil => exact fun acc => rfl
  | cons m ms ih =>
    intro acc
    rw [List.foldl_cons, ih (memberStep env lt acc m), memberStep_notifications]

/-- `memberStep_oid_pres` lifted to the whole follower loop. -/
theorem foldMembers_oid_pres (env : ExecEnv) (lt : TradeRec) (x : String) :
    ∀ (ms : List GroupMemberRec) (acc : Store × List TradeRec),
      hasOid acc.1 x = true →
      hasOid (ms.foldl (memberStep env lt) acc).1 x = true ∧
      oidCount (ms.foldl (memberStep env lt) acc).1 x = oidCount acc.1 x := by
  intro ms
  induction ms with
  | nil => exact fun acc hx => ⟨hx, rfl⟩
  | cons m ms ih =>
    intro acc hx
    obtain ⟨hp, hc⟩ := memberStep_oid_pres env lt acc m x hx
    obtain ⟨hp2, hc2⟩ := ih (memberStep env lt acc m) hp
    exact ⟨hp2, by rw [List.foldl_cons] at *; rw [hc2, hc]⟩

/-- `memberStep_pub_mirror` lifted to the whole follower loop. -/
theorem foldMembers_pub_mirror (env : ExecEnv) (lt : TradeRec) :
    ∀ (ms : List GroupMemberRec) (acc : Store × List TradeRec),
      (ms.foldl (memberStep env lt) acc).1.publishes.length + acc.2.length =
        acc.1.publishes.length + (ms.foldl (memberStep env lt) acc).2.length := by
  intro ms
  induction ms with
  | nil => exact fun acc => rfl
  | cons m ms ih =>
    intro acc
    have h1 := memberStep_pub_mirror env lt acc m
    have h2 := ih (memberStep env lt acc m)
    rw [List.foldl_cons]
    omega

/-- Unfolding of the orchestrator on an active group. -/
theorem execute_mirror_trades_active {env : ExecEnv} {lt : TradeRec} {st : Store}
    {g : GroupRec} (hg : env.findGroup lt.group_id = some g)
    (hact : g.is_active = true) :
    execute_mirror_trades env lt st =
      ((runMembers env lt st (activeMembers env g.id)).2,
       (runMembers env lt st (activeMembers env g.id)).1) := by
  unfold execute_mirror_trades
  rw [hg]
  rcases hrm : runMembers env lt st (activeMembers env g.id) with ⟨a, b⟩
  simp [hact, hrm]

/-- The orchestrator only appends to the committed trades. -/
theorem execute_trades_extends (env : ExecEnv) (lt : TradeRec) (st : Store) :
    ∃ d, (execute_mirror_trades env lt st).2.trades = st.trades ++ d := by
  cases hg : env.findGroup lt.group_id with
  | none => exact ⟨[], by simp [execute_mirror_trades, hg]⟩
  | some g =>
    cases hact : g.is_active with
    | false => exact ⟨[], by simp [execute_mirror_trades, hg, hact]⟩
    | true =>
      rw [execute_mirror_trades_active hg hact]
      exact foldMembers_trades_extends env lt (activeMembers env g.id) (st, [])

/-- The orchestrator never creates durable notifications. -/
theorem execute_notifications (env : ExecEnv) (lt : TradeRec) (st : Store) :
    (execute_mirror_trades env lt st).2.notifications = st.notifications := by
  cases hg : env.findGroup lt.group_id with
  | none => simp [execute_mirror_trades, hg]
  | some g =>
    cases hact : g.is_active with
    | false => simp [execute_mirror_trades, hg, hact]
    | true =>
      rw [execute_mirror_trades_active hg hact]
      exact foldMembers_notifications env lt (activeMembers env g.id) (st, [])

/-- The orchestrator preserves presence and multiplicity of any broker
order id already persisted. -/
theorem execute_oid_pres (env : ExecEnv) (lt : TradeRec) (st : Store) (x : String)
    (hx : hasOid st x = true) :
    hasOid (execute_mirror_trades env lt st).2 x = true ∧
    oidCount (execute_mirror_trades env lt st).2 x = oidCount st x := by
  cases hg : env.findGroup lt.group_id with
  | none =>
    exact ⟨by simp [execute_mirror_trades, hg, hx], by simp [execute_mirror_trades, hg]⟩
  | some g =>
    cases hact : g.is_active with
    | false =>
      exact ⟨by simp [execute_mirror_trades, hg, hact, hx],
             by simp [execute_mirror_trades, hg, hact]⟩
    | true =>
      rw [execute_mirror_trades_active hg hact]
      exact foldMembers_oid_pres env lt x (activeMembers env g.id) (st, []) hx

/-- The orchestrator publishes exactly one message per mirror trade it
returns. -/
theorem execute_pub_count (env : ExecEnv) (lt : TradeRec) (st : Store) :
    (execute_mirror_trades env lt st).2.publishes.length =
      st.publishes.length + (execute_mirror_trades env lt st).1.length := by
  cases hg : env.findGroup lt.group_id with
  | none => simp [execute_mirror_trades, hg]
  | some g =>
    cases hact : g.is_active with
    | false => simp [execute_mirror_trades, hg, hact]
    | true =>
      rw [execute_mirror_trades_active hg hact]
      have h := foldMembers_pub_mirror env lt (activeMembers env g.id) (st, [])
      simpa using h

/-- Store-level monotonicity of broker order id presence. -/
theorem hasOid_extends {s s1 : Store} {x : String}
    (h : ∃ d, s1.trades = s.trades ++ d) (hx : hasOid s x = true) :
    hasOid s1 x = true := by
  obtain ⟨d, hd⟩ := h
  unfold hasOid at hx ⊢
  rw [hd]
  exact hasOid_append _ _ _ hx

/-- A successful insert makes the inserted row's broker order id present. -/
theorem insertTrade_hasOid {s : Store} {t : TradeRec} {s1 : Store} {t1 : TradeRec}
    (h : insertTrade s t = some (s1, t1)) :
    hasOid s1 t.zerodha_order_id = true := by
  obtain ⟨_, ht1, hs1⟩ := insertTrade_eq_some h
  subst hs1
  unfold hasOid
  rw [List.any_append]
  have : (t1.zerodha_order_id == t.zerodha_order_id) = true := by
    rw [ht1]; simp
  simp [this]

/-- The store state after one successfully processed active group:
mirror execution followed by the per-group `trade` publish. -/
def afterGroup (env : PollEnv) (g : GroupRec) (st1 : Store) (inserted : TradeRec) : Store :=
  { (execute_mirror_trades env.exec inserted st1).2 with publishes :=
      (execute_mirror_trades env.exec inserted st1).2.publishes ++
        [(groupChannel g.id, "trade")] }

/-- Unfolding equation: an inactive group is skipped. -/
theorem processGroups_cons_inactive {env : PollEnv} {pt : ParsedTrade}
    {st : Store} {g : GroupRec} {gs : List GroupRec} (hact : g.is_active = false) :
    processGroups env pt st (g :: gs) = processGroups env pt st gs := by
  simp [processGroups, hact]

/-- Unfolding equation: an active group whose leader-row commit violates
the unique constraint aborts the loop with the exception flag set. -/
theorem processGroups_cons_dup {env : PollEnv} {pt : ParsedTrade}
    {st : Store} {g : GroupRec} {gs : List GroupRec} (hact : g.is_active = true)
    (hins : insertTrade st (mkGroupTrade pt g) = none) :
    processGroups env pt st (g :: gs) = (st, true) := by
  simp [processGroups, hact, hins]

/-- Unfolding equation: an active group whose leader row commits runs
the orchestrator, publishes the group event and continues. -/
theorem processGroups_cons_ok {env : PollEnv} {pt : ParsedTrade}
    {st st1 : Store} {inserted : TradeRec} {g : GroupRec} {gs : List GroupRec}
    (hact : g.is_active = true)
    (hins : insertTrade st (mkGroupTrade pt g) = some (st1, inserted)) :
    processGroups env pt st (g :: gs) =
      processGroups env pt (afterGroup env g st1 inserted) gs := by
  simp [processGroups, hact, hins, afterGroup]

/-- The per-trade group loop only appends to the committed trades. -/
theorem processGroups_extends (env : PollEnv) (pt : ParsedTrade) :
    ∀ (gs : List GroupRec) (st : Store),
      ∃ d, (processGroups env pt st gs).1.trades = st.trades ++ d := by
  intro gs
  induction gs with
  | nil => exact fun st => ⟨[], by simp [processGroups]⟩
  | cons g gs ih =>
    intro st
    cases hact : g.is_active with
    | false => rw [processGroups_cons_inactive hact]; exact ih st
    | true =>
      cases hins : insertTrade st (mkGroupTrade pt g) with
      | none => rw [processGroups_cons_dup hact hins]; exact ⟨[], by simp⟩
      | some p =>
        obtain ⟨st1, inserted⟩ := p
        rw [processGroups_cons_ok hact hins]
        obtain ⟨_, _, hs1⟩ := insertTrade_eq_some hins
        obtain ⟨d2, hd2⟩ := execute_trades_extends env.exec inserted st1
        obtain ⟨d3, hd3⟩ := ih (afterGroup env g st1 inserted)
        refine ⟨[inserted] ++ d2 ++ d3, ?_⟩
        rw [hd3]
        have hag : (afterGroup env g st1 inserted).trades =
            (execute_mirror_trades env.exec inserted st1).2.trades := rfl
        rw [hag, hd2, hs1]
        simp

/-- `hasOid` and `oidCount` ignore the publish log. -/
theorem afterGroup_trades (env : PollEnv) (g : GroupRec) (st1 : Store)
    (inserted : TradeRec) :
    (afterGroup env g st1 inserted).trades =
      (execute_mirror_trades env.exec inserted st1).2.trades := rfl

/-- The per-trade group loop preserves presence and multiplicity of any
broker order id already persisted. -/
theorem processGroups_oid_pres (env : PollEnv) (pt : ParsedTrade) (x : String) :
    ∀ (gs : List GroupRec) (st : Store), hasOid st x = true →
      hasOid (processGroups env pt st gs).1 x = true ∧
      oidCount (processGroups env pt st gs).1 x = oidCount st x := by
  intro gs
  induction gs with
  | nil => exact fun st hx => ⟨hx, rfl⟩
  | cons g gs ih =>
    intro st hx
    cases hact : g.is_active with
    | false => rw [processGroups_cons_inactive hact]; exact ih st hx
    | true =>
      cases hins : insertTrade st (mkGroupTrade pt g) with
      | none => rw [processGroups_cons_dup hact hins]; exact ⟨hx, rfl⟩
      | some p =>
        obtain ⟨st1, inserted⟩ := p
        rw [processGroups_cons_ok hact hins]
        obtain ⟨h1, hc1⟩ := insertTrade_oid_pres hins x hx
        obtain ⟨h2, hc2⟩ := execute_oid_pres env.exec inserted st1 x h1
        have h3 : hasOid (afterGroup env g st1 inserted) x = true := h2
        have hc3 : oidCount (afterGroup env g st1 inserted) x =
            oidCount (execute_mirror_trades env.exec inserted st1).2 x := rfl
        obtain ⟨h4, hc4⟩ := ih (afterGroup env g st1 inserted) h3
        exact ⟨h4, by rw [hc4, hc3, hc2, hc1]⟩

/-- When every led group is inactive the group loop does nothing. -/
theorem processGroups_all_inactive (env : PollEnv) (pt : ParsedTrade) :
    ∀ (gs : List GroupRec) (st : Store),
      (∀ g ∈ gs, g.is_active = false) →
      processGroups env pt st gs = (st, false) := by
  intro gs
  induction gs with
  | nil => exact fun st _ => rfl
  | cons g gs ih =>
    intro st hall
    rw [processGroups_cons_inactive (hall g (by simp))]
    exact ih st (fun g0 hg0 => hall g0 (by simp [hg0]))

/-- If some led group is active and the group loop finishes without an
exception, the leader row's broker order id is persisted afterwards. -/
theorem processGroups_inserts_oid (env : PollEnv) (pt : ParsedTrade) :
    ∀ (gs : List GroupRec) (st : Store),
      (∃ g ∈ gs, g.is_active = true) →
      (processGroups env pt st gs).2 = false →
      hasOid (processGroups env pt st gs).1 pt.zerodha_order_id = true := by
  intro gs
  induction gs with
  | nil => rintro st ⟨g, hg, _⟩ _; cases hg
  | cons g gs ih =>
    rintro st ⟨g0, hg0, hg0act⟩ hflag
    cases hact : g.is_active with
    | false =>
      rw [processGroups_cons_inactive hact] at hflag ⊢
      have hg0' : g0 ∈ gs := by
        rcases List.mem_cons.mp hg0 with h | h
        · subst h; rw [hact] at hg0act; cases hg0act
        · exact h
      exact ih st ⟨g0, hg0', hg0act⟩ hflag
    | true =>
      cases hins : insertTrade st (mkGroupTrade pt g) with
      | none =>
        rw [processGroups_cons_dup hact hins] at hflag
        cases hflag
      | some p =>
        obtain ⟨st1, inserted⟩ := p
        rw [processGroups_cons_ok hact hins] at hflag ⊢
        have h1 : hasOid st1 pt.zerodha_order_id = true := insertTrade_hasOid hins
        have h2 : hasOid (execute_mirror_trades env.exec inserted st1).2
            pt.zerodha_order_id = true :=
          (execute_oid_pres env.exec inserted st1 _ h1).1
        have h3 : hasOid (afterGroup env g st1 inserted) pt.zerodha_order_id = true := h2
        exact (processGroups_oid_pres env pt _ gs _ h3).1

/-- Unfolding equation: an unparseable payload is skipped. -/
theorem processTrades_cons_unparseable {env : PollEnv} {user : UserRec}
    {st : Store} {od : RawOrder} {rest : List RawOrder}
    (h : parse_trade od = none) :
    processTrades env user st (od :: rest) = processTrades env user st rest := by
  simp [processTrades, h]

/-- Unfolding equation: a trade whose broker order id is already
persisted is skipped (`app/worker/tasks.py` lines 55-60). -/
theorem processTrades_cons_dup {env : PollEnv} {user : UserRec}
    {st : Store} {od : RawOrder} {pt0 : ParsedTrade} {rest : List RawOrder}
    (h : parse_trade od = some pt0)
    (hd : hasOid st pt0.zerodha_order_id = true) :
    processTrades env user st (od :: rest) = processTrades env user st rest := by
  simp [processTrades, h, hd]

/-- Unfolding equation: a new trade whose group loop raises aborts the
run with the exception flag. -/
theorem processTrades_cons_new_abort {env : PollEnv} {user : UserRec}
    {st st1 : Store} {od : RawOrder} {pt0 : ParsedTrade} {rest : List RawOrder}
    (h : parse_trade od = some pt0)
    (hd : hasOid st pt0.zerodha_order_id = false)
    (hpg : processGroups env { pt0 with leader_id := user.id } st
        (env.ledGroups user.id) = (st1, true)) :
    processTrades env user st (od :: rest) = (st1, true) := by
  simp [processTrades, h, hd, hpg]

/-- Unfolding equation: a new trade whose group loop completes continues
with the remaining fetched trades. -/
theorem processTrades_cons_new_ok {env : PollEnv} {user : UserRec}
    {st st1 : Store} {od : RawOrder} {pt0 : ParsedTrade} {rest : List RawOrder}
    (h : parse_trade od = some pt0)
    (hd : hasOid st pt0.zerodha_order_id = false)
    (hpg : processGroups env { pt0 with leader_id := user.id } st
        (env.ledGroups user.id) = (st1, false)) :
    processTrades env user st (od :: rest) = processTrades env user st1 rest := by
  simp [processTrades, h, hd, hpg]

/-- The per-trade loop only appends to the committed trades. -/
theorem processTrades_extends (env : PollEnv) (user : UserRec) :
    ∀ (remote : List RawOrder) (st : Store),
      ∃ d, (processTrades env user st remote).1.trades = st.trades ++ d := by
  intro remote
  induction remote with
  | nil => exact fun st => ⟨[], by simp [processTrades]⟩
  | cons od rest ih =>
    intro st
    cases hpar : parse_trade od with
    | none => rw [processTrades_cons_unparseable hpar]; exact ih st
    | some pt0 =>
      cases hd : hasOid st pt0.zerodha_order_id with
      | true => rw [processTrades_cons_dup hpar hd]; exact ih st
      | false =>
        rcases hpg : processGroups env { pt0 with leader_id := user.id } st
            (env.ledGroups user.id) with ⟨st1, flag⟩
        obtain ⟨d1, hd1⟩ := processGroups_extends env
          { pt0 with leader_id := user.id } (env.ledGroups user.id) st
        rw [hpg] at hd1
        cases flag with
        | true => rw [processTrades_cons_new_abort hpar hd hpg]; exact ⟨d1, hd1⟩
        | false =>
          rw [processTrades_cons_new_ok hpar hd hpg]
          obtain ⟨d2, hd2⟩ := ih st1
          exact ⟨d1 ++ d2, by rw [hd2, hd1, List.append_assoc]⟩

/-- The per-trade loop preserves presence and multiplicity of any broker
order id already persisted. -/
theorem processTrades_oid_pres (env : PollEnv) (user : UserRec) (x : String) :
    ∀ (remote : List RawOrder) (st : Store), hasOid st x = true →
      hasOid (processTrades env user st remote).1 x = true ∧
      oidCount (processTrades env user st remote).1 x = oidCount st x := by
  intro remote
  induction remote with
  | nil => exact fun st hx => ⟨hx, rfl⟩
  | cons od rest ih =>
    intro st hx
    cases hpar : parse_trade od with
    | none => rw [processTrades_cons_unparseable hpar]; exact ih st hx
    | some pt0 =>
      cases hd : hasOid st pt0.zerodha_order_id with
      | true => rw [processTrades_cons_dup hpar hd]; exact ih st hx
      | false =>
        rcases hpg : processGroups env { pt0 with leader_id := user.id } st
            (env.ledGroups user.id) with ⟨st1, flag⟩
        obtain ⟨h1, hc1⟩ := processGroups_oid_pres env
          { pt0 with leader_id := user.id } x (env.ledGroups user.id) st hx
        rw [hpg] at h1 hc1
        cases flag with
        | true =>
          rw [processTrades_cons_new_abort hpar hd hpg]
          exact ⟨h1, hc1⟩
        | false =>
          rw [processTrades_cons_new_ok hpar hd hpg]
          obtain ⟨h2, hc2⟩ := ih st1 h1
          exact ⟨h2, by rw [hc2, hc1]⟩

/-- When every led group is inactive, a polling pass is a no-op. -/
theorem processTrades_all_inactive (env : PollEnv) (user : UserRec)
    (hall : ∀ g ∈ env.ledGroups user.id, g.is_active = false) :
    ∀ (remote : List RawOrder) (st : Store),
      processTrades env user st remote = (st, false) := by
  intro remote
  induction remote with
  | nil => exact fun st => rfl
  | cons od rest ih =>
    intro st
    cases hpar : parse_trade od with
    | none => rw [processTrades_cons_unparseable hpar]; exact ih st
    | some pt0 =>
      cases hd : hasOid st pt0.zerodha_order_id with
      | true => rw [processTrades_cons_dup hpar hd]; exact ih st
      | false =>
        have hpg := processGroups_all_inactive env
          { pt0 with leader_id := user.id } (env.ledGroups user.id) st hall
        rw [processTrades_cons_new_ok hpar hd hpg]
        exact ih st

/-- Re-running a completed polling pass over the same fetched trade list
is a no-op: every new trade was either persisted by the first pass or
belongs to a user with no active led group, so the second pass skips or
re-skips everything. -/
theorem processTrades_rerun (env : PollEnv) (user : UserRec) :
    ∀ (remote : List RawOrder) (st st1 : Store),
      processTrades env user st remote = (st1, false) →
      processTrades env user st1 remote = (st1, false) := by
  by_cases hact : ∃ g ∈ env.ledGroups user.id, g.is_active = true
  · intro remote
    induction remote with
    | nil =>
      intro st st1 h
      rw [show processTrades env user st [] = (st, false) from rfl] at h
      injection h with h1 h2
      subst h1
      rfl
    | cons od rest ih =>
      intro st st1 h
      cases hpar : parse_trade od with
      | none =>
        rw [processTrades_cons_unparseable hpar] at h
        rw [processTrades_cons_unparseable hpar]
        exact ih st st1 h
      | some pt0 =>
        cases hd : hasOid st pt0.zerodha_order_id with
        | true =>
          rw [processTrades_cons_dup hpar hd] at h
          have h1 : hasOid st1 pt0.zerodha_order_id = true := by
            obtain ⟨d, hdd⟩ := processTrades_extends env user rest st
            rw [h] at hdd
            exact hasOid_extends ⟨d, hdd⟩ hd
          rw [processTrades_cons_dup hpar h1]
          exact ih st st1 h
        | false =>
          rcases hpg : processGroups env { pt0 with leader_id := user.id } st
              (env.ledGroups user.id) with ⟨stA, flag⟩
          cases flag with
          | true =>
            rw [processTrades_cons_new_abort hpar hd hpg] at h
            exact absurd (congrArg Prod.snd h) (by simp)
          | false =>
            rw [processTrades_cons_new_ok hpar hd hpg] at h
            have hA : hasOid stA pt0.zerodha_order_id = true := by
              have hfl : (processGroups env { pt0 with leader_id := user.id } st
                  (env.ledGroups user.id)).2 = false := by rw [hpg]
              have := processGroups_inserts_oid env
                { pt0 with leader_id := user.id } (env.ledGroups user.id) st hact hfl
              rw [hpg] at this
              exact this
            have h1 : hasOid st1 pt0.zerodha_order_id = true := by
              obtain ⟨d, hdd⟩ := processTrades_extends env user rest stA
              rw [h] at hdd
              exact hasOid_extends ⟨d, hdd⟩ hA
            rw [processTrades_cons_dup hpar h1]
            exact ih stA st1 h
  · intro remote st st1 h
    have hall : ∀ g ∈ env.ledGroups user.id, g.is_active = false := by
      intro g hg
      cases hga : g.is_active with
      | false => rfl
      | true => exact absurd ⟨g, hg, hga⟩ hact
    rw [processTrades_all_inactive env user hall] at h
    injection h with h1 h2
    subst h1
    exact processTrades_all_inactive env user hall remote st

/-- `processTrades_rerun` lifted to the polling task. -/
theorem poll_user_trades_rerun (env : PollEnv) (uid : Int)
    (remote : List RawOrder) (st st1 : Store)
    (h : poll_user_trades env uid remote st = (st1, false)) :
    poll_user_trades env uid remote st1 = (st1, false) := by
  cases hu : env.exec.findUser uid with
  | none =>
    have h1 : st = st1 := by
      simpa [poll_user_trades, hu] using congrArg Prod.fst h
    subst h1
    simp [poll_user_trades, hu]
  | some u =>
    cases htok : u.zerodha_access_token with
    | none =>
      have h1 : st = st1 := by
        simpa [poll_user_trades, hu, htok] using congrArg Prod.fst h
      subst h1
      simp [poll_user_trades, hu, htok]
    | some tok =>
      simp only [poll_user_trades, hu, htok] at h ⊢
      exact processTrades_rerun env u remote st st1 h

/-- `processTrades_oid_pres` lifted to the polling task. -/
theorem poll_user_trades_oid_pres (env : PollEnv) (uid : Int)
    (remote : List RawOrder) (st : Store) (x : String)
    (hx : hasOid st x = true) :
    hasOid (poll_user_trades env uid remote st).1 x = true ∧
    oidCount (poll_user_trades env uid remote st).1 x = oidCount st x := by
  cases hu : env.exec.findUser uid with
  | none =>
    refine ⟨?_, ?_⟩ <;> simp [poll_user_trades, hu, hx]
  | some u =>
    cases htok : u.zerodha_access_token with
    | none =>
      refine ⟨?_, ?_⟩ <;> simp [poll_user_trades, hu, htok, hx]
    | some tok =>
      simp only [poll_user_trades, hu, htok]
      exact processTrades_oid_pres env u x remote st hx

/-- A follower whose order placement fails (falsy order id or raised
exception) leaves the loop accumulator untouched, whatever its
eligibility up to that point. -/
theorem memberStep_fail_id (env : ExecEnv) (lt : TradeRec) (m : GroupMemberRec)
    (hfail : env.placeOrder m.user_id = OrderOutcome.rejected ∨
             env.placeOrder m.user_id = OrderOutcome.exn) :
    ∀ acc, memberStep env lt acc m = acc := by
  intro acc
  rcases memberStep_cases env lt acc m with h | ⟨oid, st1, inserted, hord, _, _, _⟩
  · exact h
  · rcases hfail with hf | hf <;> rw [hf] at hord <;> cases hord

/-- A successful parse requires every required payload key to be
present (the `order_data[...]` lookups of `parse_trade`). -/
theorem parse_trade_some_fields {o : RawOrder} {pt : ParsedTrade}
    (h : parse_trade o = some pt) :
    (∃ a, o.order_id = some a) ∧ (∃ a, o.tradingsymbol = some a) ∧
    (∃ a, o.transaction_type = some a) ∧ (∃ a, o.quantity = some a) ∧
    (∃ a, o.average_price = some a) ∧ (∃ a, o.status = some a) ∧
    (∃ a, o.order_timestamp = some a) := by
  simp only [parse_trade, Option.bind_eq_bind, Option.bind_eq_some, Option.pure_def,
    Option.some.injEq] at h
  obtain ⟨oid, h1, sym, h2, tt, h3, qty, h4, av, h5, pv, h6, s, h7, tsf, h8, ts, h9, h10⟩ := h
  exact ⟨⟨oid, h1⟩, ⟨sym, h2⟩, ⟨tt, h3⟩, ⟨qty, h4⟩, ⟨av, h5⟩, ⟨s, h7⟩, ⟨tsf, h8⟩⟩

/-- The status a successful parse assigns: `COMPLETE` only for the
literal string `"COMPLETE"`, `OPEN` for everything else. -/
theorem parse_trade_status {o : RawOrder} {pt : ParsedTrade} {s : String}
    (h : parse_trade o = some pt) (hs : o.status = some s) :
    pt.status = if s == "COMPLETE" then TradeStatus.COMPLETE else TradeStatus.OPEN := by
  simp only [parse_trade, Option.bind_eq_bind, Option.bind_eq_some, Option.pure_def,
    Option.some.injEq] at h
  obtain ⟨oid, h1, sym, h2, tt, h3, qty, h4, av, h5, pv, h6, s0, h7, tsf, h8, ts, h9, h10⟩ := h
  rw [hs] at h7
  injection h7 with h7
  subst h7
  rw [← h10]

/-- Property of every mirror trade created for the member list `M`:
linkage to the leader trade, PENDING status, creation timestamp,
positive quantity, and the follower/quantity pair coming from some
member of `M`. -/
def mirrorProp (env : ExecEnv) (lt : TradeRec) (M : List GroupMemberRec)
    (mt : TradeRec) : Prop :=
  mt.parent_trade_id = some lt.id ∧ mt.status = TradeStatus.PENDING ∧
  mt.executed_at = some env.now ∧ 0 < mt.quantity ∧
  ∃ m ∈ M, mt.follower_id = some m.user_id ∧
    mt.quantity = calculate_position_size lt.quantity (riskOr1 m.risk_factor)

/-- The computed position size is nonnegative for a positive leader
quantity and nonnegative risk factor. -/
theorem calculate_position_size_nonneg (q : Int) (r : ℚ)
    (hq : 0 < q) (hr : 0 ≤ r) : 0 ≤ calculate_position_size q r := by
  rw [calculate_position_size_eq, pyInt]
  have hx : 0 ≤ (q : ℚ) * r := mul_nonneg (by exact_mod_cast hq.le) hr
  rw [if_pos hx]
  exact Int.floor_nonneg.mpr hx

/-- `mirrorProp` is invariant under the follower loop. -/
theorem foldMembers_mirrorProp (env : ExecEnv) (lt : TradeRec)
    (M : List GroupMemberRec) (hq : 0 < lt.quantity) :
    ∀ (ms : List GroupMemberRec) (acc : Store × List TradeRec),
      (∀ m ∈ ms, m ∈ M) →
      (∀ m ∈ ms, 0 ≤ riskOr1 m.risk_factor) →
      (∀ mt ∈ acc.2, mirrorProp env lt M mt) →
      ∀ mt ∈ (ms.foldl (memberStep env lt) acc).2, mirrorProp env lt M mt := by
  intro ms
  induction ms with
  | nil => exact fun acc _ _ hacc => hacc
  | cons m ms ih =>
    intro acc hsub hr hacc
    rw [List.foldl_cons]
    refine ih (memberStep env lt acc m)
      (fun m0 hm0 => hsub m0 (by simp [hm0]))
      (fun m0 hm0 => hr m0 (by simp [hm0])) ?_
    rcases memberStep_cases env lt acc m with h | ⟨oid, st1, inserted, _, hqnz, hins, h⟩
    · rw [h]; exact hacc
    · rw [h]
      intro mt hmt
      rcases List.mem_append.mp hmt with hmt | hmt
      · exact hacc mt hmt
      · have hmt1 : mt = inserted := by simpa using hmt
        subst hmt1
        obtain ⟨_, hins1, _⟩ := insertTrade_eq_some hins
        subst hins1
        have hq0 : 0 ≤ calculate_position_size lt.quantity (riskOr1 m.risk_factor) :=
          calculate_position_size_nonneg lt.quantity (riskOr1 m.risk_factor) hq
            (hr m (by simp))
        have hqne : calculate_position_size lt.quantity (riskOr1 m.risk_factor) ≠ 0 := by
          intro hc
          rw [hc] at hqnz
          simp at hqnz
        refine ⟨rfl, rfl, rfl, ?_, m, hsub m (by simp), rfl, rfl⟩
        exact lt_of_le_of_ne hq0 (Ne.symm hqne)

/-! ## Concrete scenario data -/

/-- Leader trade used by the concrete scenarios: quantity 10, RELIANCE,
BUY, persisted for group 1 with primary key 7 and leader 1. -/
def ltScenario : TradeRec :=
  { id := 7, leader_id := 1, group_id := 1, zerodha_order_id := "OID1",
    symbol := "RELIANCE", side := TradeSide.BUY, quantity := 10,
    status := TradeStatus.COMPLETE }

/-- Orchestrator environment for the mirroring scenario of the spec:
group 1 active; followers user 2 (risk 0.5, active), user 3 (risk 2.0,
active), user 4 (inactive); all users have access tokens and all order
placements succeed. -/
def envScenario : ExecEnv :=
  { findGroup := fun gid => if gid == 1 then some { id := 1, is_active := true } else none
    members := fun gid =>
      if gid == 1 then
        [ { user_id := 2, role := "member", status := "ACTIVE", risk_factor := some (mkRat 1 2) },
          { user_id := 3, role := "member", status := "ACTIVE", risk_factor := some (mkRat 2 1) },
          { user_id := 4, role := "member", status := "INACTIVE", risk_factor := some (mkRat 1 1) } ]
      else []
    findUser := fun uid =>
      if uid == 1 then some { id := 1, name := "L", zerodha_access_token := some "tokL" }
      else if uid == 2 then some { id := 2, name := "B", zerodha_access_token := some "tokB" }
      else if uid == 3 then some { id := 3, name := "C", zerodha_access_token := some "tokC" }
      else if uid == 4 then some { id := 4, name := "D", zerodha_access_token := some "tokD" }
      else none
    placeOrder := fun uid => OrderOutcome.ok ("ORD" ++ toString uid)
    now := 100 }

/-- Follower A of the isolation scenario (order placement rejected). -/
def memberA : GroupMemberRec :=
  { user_id := 2, role := "member", status := "ACTIVE", risk_factor := some (mkRat 1 1) }

/-- Follower B of the isolation scenario (order placement succeeds). -/
def memberB : GroupMemberRec :=
  { user_id := 3, role := "member", status := "ACTIVE", risk_factor := some (mkRat 1 1) }

/-- Environment for the isolation scenario: follower 2's order is
rejected, follower 3's succeeds. -/
def envIsolation : ExecEnv :=
  { envScenario with
    members := fun gid => if gid == 1 then [memberA, memberB] else []
    placeOrder := fun uid =>
      if uid == 2 then OrderOutcome.rejected else OrderOutcome.ok ("ORD" ++ toString uid) }

/-- Member with a risk factor small enough that the computed mirror
quantity is zero. -/
def memberTiny : GroupMemberRec :=
  { user_id := 2, role := "member", status := "ACTIVE", risk_factor := some (mkRat 1 100) }

/-- A raw payload with a non-COMPLETE status. -/
def rawCancelled : RawOrder :=
  { order_id := some "OID1", tradingsymbol := some "RELIANCE",
    transaction_type := some "BUY", quantity := some 10,
    average_price := some (some (mkRat 100 1)), price := some (some (mkRat 99 1)),
    status := some "CANCELLED", order_timestamp := some (some 50),
    trigger_price := none }

/-- The trade `parse_trade` produces from `rawCancelled`. -/
def ptCancelled : ParsedTrade :=
  { zerodha_order_id := "OID1", symbol := "RELIANCE", side := TradeSide.BUY,
    quantity := 10, price := some (mkRat 100 1), status := TradeStatus.OPEN,
    executed_at := 50, trigger_price := none, leader_id := 0 }

/-! ## Claims -/

/-- C3: for every leader quantity `Q > 0` and risk factor `R ≥ 0` the
Position Sizing Engine returns `⌊Q * R⌋`, and a follower whose computed
quantity is 0 is skipped: the loop iteration changes nothing (no Trade
row) and gives rise to no order-placement attempt. -/
theorem position_size_floor_zero_skip :
    (∀ (q : Int) (r : ℚ), 0 < q → 0 ≤ r →
       calculate_position_size q r = ⌊(q : ℚ) * r⌋) ∧
    (∀ (env : ExecEnv) (lt : TradeRec) (acc : Store × List TradeRec)
       (m : GroupMemberRec),
       calculate_position_size lt.quantity (riskOr1 m.risk_factor) = 0 →
       memberStep env lt acc m = acc ∧ memberAttempts env lt m = []) := by
  constructor
  · intro q r hq hr
    have hx : 0 ≤ (q : ℚ) * r := mul_nonneg (by exact_mod_cast hq.le) hr
    rw [calculate_position_size_eq, pyInt, if_pos hx]
  · intro env lt acc m hzero
    constructor
    · rcases acc with ⟨st, ms⟩
      cases hl : (m.user_id == lt.leader_id) with
      | true => simp [memberStep, hl]
      | false =>
        cases hu : env.findUser m.user_id with
        | none => simp [memberStep, hl, hu]
        | some u =>
          cases htok : u.zerodha_access_token with
          | none => simp [memberStep, hl, hu, htok]
          | some tok => simp [memberStep, hl, hu, htok, hzero]
    · cases hl : (m.user_id == lt.leader_id) with
      | true => simp [memberAttempts, hl]
      | false =>
        cases hu : env.findUser m.user_id with
        | none => simp [memberAttempts, hl, hu]
        | some u =>
          cases htok : u.zerodha_access_token with
          | none => simp [memberAttempts, hl, hu, htok]
          | some tok => simp [memberAttempts, hl, hu, htok, hzero]

/-- Witness for C3 at concrete inputs: `size(10, 1/2) = ⌊10 * 1/2⌋`,
and a follower with risk factor `1/100` of a quantity-10 trade
(computed size 0) leaves the loop state untouched and places no order. -/
theorem position_size_floor_zero_skip_witness :
    calculate_position_size 10 (mkRat 1 2) = ⌊(10 : ℚ) * mkRat 1 2⌋ ∧
    memberStep envScenario ltScenario (Store.empty, []) memberTiny = (Store.empty, []) ∧
    memberAttempts envScenario ltScenario memberTiny = [] := by
  have h0 : calculate_position_size ltScenario.quantity (riskOr1 memberTiny.risk_factor) = 0 := by
    decide
  exact ⟨position_size_floor_zero_skip.1 10 (mkRat 1 2) (by decide) (by decide),
         (position_size_floor_zero_skip.2 envScenario ltScenario (Store.empty, []) memberTiny h0).1,
         (position_size_floor_zero_skip.2 envScenario ltScenario (Store.empty, []) memberTiny h0).2⟩

/-- C2: a follower whose order placement fails (rejected order or raised
exception) neither prevents the remaining followers from being processed
— the loop over `pre ++ a :: post` equals the loop over `pre ++ post` —
nor rolls anything back: every iteration only appends to the committed
trades and to the mirror list. -/
theorem follower_failure_isolated (env : ExecEnv) (lt : TradeRec) (st : Store)
    (pre post : List GroupMemberRec) (a : GroupMemberRec)
    (hfail : env.placeOrder a.user_id = OrderOutcome.rejected ∨
             env.placeOrder a.user_id = OrderOutcome.exn) :
    runMembers env lt st (pre ++ a :: post) = runMembers env lt st (pre ++ post) ∧
    (∀ (acc : Store × List TradeRec) (m : GroupMemberRec),
      (∃ d, (memberStep env lt acc m).1.trades = acc.1.trades ++ d) ∧
      (∃ d, (memberStep env lt acc m).2 = acc.2 ++ d)) := by
  constructor
  · unfold runMembers
    rw [List.foldl_append, List.foldl_append, List.foldl_cons,
        memberStep_fail_id env lt a hfail]
  · intro acc m
    exact ⟨memberStep_trades_extends env lt acc m,
           memberStep_mirrors_extends env lt acc m⟩

/-- Witness for C2: with follower 2 rejected and follower 3 succeeding,
running the loop over `[A, B]` equals running it over `[B]` alone, and
that run creates exactly B's mirror trade. -/
theorem follower_failure_isolated_witness :
    runMembers envIsolation ltScenario Store.empty ([] ++ memberA :: [memberB]) =
      runMembers envIsolation ltScenario Store.empty ([] ++ [memberB]) ∧
    (runMembers envIsolation ltScenario Store.empty [memberA, memberB]).2.map
      (fun t => t.follower_id) = [some 3] := by
  refine ⟨(follower_failure_isolated envIsolation ltScenario Store.empty
    [] [memberB] memberA (Or.inl (by decide))).1, by decide⟩

/-- C9 (code bug): `WebSocketManager.disconnect` is not idempotent.
With registry `{1 ↦ {10, 20}}`, the first `disconnect(10, 1)` succeeds
and leaves `{1 ↦ {20}}`; because the set is still non-empty the user's
entry survives, and a second `disconnect(10, 1)` reaches
`set.remove(10)` and raises `KeyError` instead of being a no-op as the
spec's idempotent-unregister requirement demands. -/
theorem ws_disconnect_keyerror :
    disconnect ⟨[(1, [10, 20])]⟩ 10 1 = Except.ok ⟨[(1, [20])]⟩ ∧
    disconnect ⟨[(1, [20])]⟩ 10 1 = Except.error "KeyError" :=
  ⟨rfl, rfl⟩

/-- C10: whenever `parse_trade` succeeds on a payload whose `status`
field is anything other than `"COMPLETE"` (for instance `"CANCELLED"`
or `"REJECTED"`), the resulting trade has status `OPEN` — the parser
collapses all non-COMPLETE statuses — and a payload missing any
required key parses to `none` rather than raising. -/
theorem parse_trade_status_collapse :
    (∀ (o : RawOrder) (pt : ParsedTrade) (s : String),
       o.status = some s → s ≠ "COMPLETE" →
       parse_trade o = some pt → pt.status = TradeStatus.OPEN) ∧
    (∀ (o : RawOrder),
       (o.order_id = none ∨ o.tradingsymbol = none ∨ o.transaction_type = none ∨
        o.quantity = none ∨ o.average_price = none ∨ o.status = none ∨
        o.order_timestamp = none) →
       parse_trade o = none) := by
  constructor
  · intro o pt s hs hne hp
    have hb : (s == "COMPLETE") = false := beq_eq_false_iff_ne.mpr hne
    rw [parse_trade_status hp hs]
    simp [hb]
  · intro o h
    cases hp : parse_trade o with
    | none => rfl
    | some pt =>
      obtain ⟨⟨a1, e1⟩, ⟨a2, e2⟩, ⟨a3, e3⟩, ⟨a4, e4⟩, ⟨a5, e5⟩, ⟨a6, e6⟩, ⟨a7, e7⟩⟩ :=
        parse_trade_some_fields hp
      rcases h with h | h | h | h | h | h | h <;> simp_all

/-- Witness for C10: a `"CANCELLED"` payload parses with status `OPEN`,
and the same payload with `order_id` removed parses to `none`. -/
theorem parse_trade_status_collapse_witness :
    ptCancelled.status = TradeStatus.OPEN ∧
    parse_trade { rawCancelled with order_id := none } = none := by
  refine ⟨parse_trade_status_collapse.1 rawCancelled ptCancelled "CANCELLED"
      rfl (by decide) (by decide), ?_⟩
  exact parse_trade_status_collapse.2 { rawCancelled with order_id := none } (Or.inl rfl)

/-- C6 (code bug): over the repository interface of the spec the
orchestrator does produce exactly the two expected mirror trades —
followers 2 and 3 with quantities 5 and 20, nothing for the inactive
follower 4 — but the executor reads `GroupMember.status` and
`member.risk_factor`, and neither attribute exists on the `GroupMember`
model (`app/models/group.py`), so at runtime the member query raises
`AttributeError`, the outer handler returns `[]`, and zero mirror
trades are created. -/
theorem mirror_scenario_attr_missing :
    ("status" ∉ groupMemberModelAttrs ∧ "risk_factor" ∉ groupMemberModelAttrs) ∧
    (execute_mirror_trades envScenario ltScenario Store.empty).1.map
        (fun t => (t.follower_id, t.quantity)) = [(some 2, 5), (some 3, 20)] :=
  ⟨⟨by decide, by decide⟩, by decide⟩

/-- Orchestrator environment with an active group whose only member has
role `member`: the group has zero active leaders. -/
def envZeroLeader : ExecEnv :=
  { envScenario with members := fun gid => if gid == 1 then [memberB] else [] }

/-- Counterexample to C8's second half: an active group with zero
active leaders (its only member row has role `member`) still yields a
mirror trade — the executor has no zero-leader check, it only skips the
row whose user id equals the trade's `leader_id`. -/
theorem zero_leader_refuted :
    (∀ m ∈ envZeroLeader.members 1, ¬ m.role = "leader") ∧
    (execute_mirror_trades envZeroLeader ltScenario Store.empty).1.length = 1 :=
  ⟨by decide, by decide⟩

/-- C8 as amended: for every leader trade whose group is absent from
the store or inactive, the orchestrator returns the empty list and the
unchanged store (the embedding is total, so no exception reaches the
caller); there is no zero-active-leader guard — see
`zero_leader_refuted`. -/
theorem orchestrator_group_guard_amended (env : ExecEnv) (lt : TradeRec) (st : Store)
    (h : env.findGroup lt.group_id = none ∨
         ∃ g, env.findGroup lt.group_id = some g ∧ g.is_active = false) :
    execute_mirror_trades env lt st = ([], st) := by
  rcases h with h | ⟨g, hg, hact⟩
  · simp [execute_mirror_trades, h]
  · simp [execute_mirror_trades, hg, hact]

/-- Environment whose group lookup finds nothing. -/
def envNoGroup : ExecEnv := { envScenario with findGroup := fun _ => none }

/-- Witness for the amended C8 at a concrete absent group. -/
theorem orchestrator_group_guard_amended_witness :
    execute_mirror_trades envNoGroup ltScenario Store.empty = ([], Store.empty) :=
  orchestrator_group_guard_amended envNoGroup ltScenario Store.empty (Or.inl rfl)

/-- Environment with a follower whose stored risk factor is negative. -/
def envNegRisk : ExecEnv :=
  { envScenario with members := fun gid =>
      if gid == 1 then
        [ { user_id := 2, role := "member", status := "ACTIVE",
            risk_factor := some (mkRat (-1) 1) } ]
      else [] }

/-- Counterexample to C7 as stated: with a stored risk factor of `-1`
the orchestrator persists a mirror trade of quantity `-10` — the
zero-quantity guard does not rule out negative quantities, so
`quantity > 0` fails for a persisted mirror trade. -/
theorem mirror_invariants_refuted :
    ¬ (∀ mt ∈ (execute_mirror_trades envNegRisk ltScenario Store.empty).1,
         0 < mt.quantity) := by
  decide

/-- C7 as amended: provided the leader trade's quantity is positive and
every stored risk factor (after the `or 1.0` defaulting) is
nonnegative, every mirror trade the orchestrator creates has
`parent_trade_id` equal to the leader trade's id, status `PENDING`,
`executed_at` equal to the creation time, positive quantity, and its
`follower_id`/`quantity` pair comes from one of the group's member
rows; leader rows built by the scheduler have `parent_trade_id` and
`follower_id` null. -/
theorem mirror_invariants_amended (env : ExecEnv) (lt : TradeRec) (st : Store)
    (g : GroupRec) (hg : env.findGroup lt.group_id = some g)
    (hq : 0 < lt.quantity)
    (hr : ∀ m ∈ env.members g.id, 0 ≤ riskOr1 m.risk_factor) :
    (∀ mt ∈ (execute_mirror_trades env lt st).1,
       mt.parent_trade_id = some lt.id ∧ mt.status = TradeStatus.PENDING ∧
       mt.executed_at = some env.now ∧ 0 < mt.quantity ∧
       ∃ m ∈ env.members g.id, mt.follower_id = some m.user_id ∧
         mt.quantity = calculate_position_size lt.quantity (riskOr1 m.risk_factor)) ∧
    (∀ (pt : ParsedTrade) (g0 : GroupRec),
       (mkGroupTrade pt g0).parent_trade_id = none ∧
       (mkGroupTrade pt g0).follower_id = none) := by
  constructor
  · cases hact : g.is_active with
    | false =>
      intro mt hmt
      rw [show execute_mirror_trades env lt st = ([], st) from by
        simp [execute_mirror_trades, hg, hact]] at hmt
      cases hmt
    | true =>
      rw [execute_mirror_trades_active hg hact]
      intro mt hmt
      have hall := foldMembers_mirrorProp env lt (env.members g.id) hq
        (activeMembers env g.id) (st, [])
        (fun m hm => List.mem_of_mem_filter hm)
        (fun m hm => hr m (List.mem_of_mem_filter hm))
        (fun mt0 hmt0 => absurd hmt0 (List.not_mem_nil mt0))
      have hmp := hall mt hmt
      unfold mirrorProp at hmp
      exact hmp
  · intro pt g0
    exact ⟨rfl, rfl⟩

/-- Witness for the amended C7 at the concrete mirroring scenario. -/
theorem mirror_invariants_amended_witness :
    (∀ mt ∈ (execute_mirror_trades envScenario ltScenario Store.empty).1,
       mt.parent_trade_id = some ltScenario.id ∧ mt.status = TradeStatus.PENDING ∧
       mt.executed_at = some envScenario.now ∧ 0 < mt.quantity ∧
       ∃ m ∈ envScenario.members (1 : Int), mt.follower_id = some m.user_id ∧
         mt.quantity = calculate_position_size ltScenario.quantity
           (riskOr1 m.risk_factor)) ∧
    (∀ (pt : ParsedTrade) (g0 : GroupRec),
       (mkGroupTrade pt g0).parent_trade_id = none ∧
       (mkGroupTrade pt g0).follower_id = none) :=
  mirror_invariants_amended envScenario ltScenario Store.empty
    { id := 1, is_active := true } rfl (by decide) (by decide)

/-- Active group 1. -/
def gActive : GroupRec := { id := 1, is_active := true }

/-- Poll environment: user 1 leads active group 1, whose only follower
is user 3 (`memberB`). -/
def pollEnvOneFollower : PollEnv :=
  { exec := envZeroLeader
    ledGroups := fun uid => if uid == 1 then [gActive] else [] }

/-- Active groups 10 and 11 and a poll environment in which user 1
leads both (no followers, so the orchestrator is a no-op). -/
def gTen : GroupRec := { id := 10, is_active := true }

/-- Active group 11. -/
def gEleven : GroupRec := { id := 11, is_active := true }

/-- Orchestrator environment for the two-group polling scenario. -/
def execTwoGroups : ExecEnv :=
  { findGroup := fun gid =>
      if gid == 10 then some gTen else if gid == 11 then some gEleven else none
    members := fun _ => []
    findUser := fun uid =>
      if uid == 1 then some { id := 1, name := "L", zerodha_access_token := some "tokL" }
      else none
    placeOrder := fun _ => OrderOutcome.rejected
    now := 100 }

/-- Poll environment in which user 1 leads the two active groups 10 and
11. -/
def pollEnvTwoGroups : PollEnv :=
  { exec := execTwoGroups
    ledGroups := fun uid => if uid == 1 then [gTen, gEleven] else [] }

/-- The polled leader's user row. -/
def userL : UserRec := { id := 1, name := "L", zerodha_access_token := some "tokL" }

/-- A store already containing a trade with broker order id `"OID1"`. -/
def stDup : Store :=
  { trades := [ltScenario], publishes := [], notifications := [], nextId := 2 }

/-- The store left by one completed polling pass of the one-follower
scenario. -/
def stRun : Store :=
  (poll_user_trades pollEnvOneFollower 1 [rawCancelled] Store.empty).1

/-- C1: ingestion is idempotent on the broker order id.  (i) Processing
a fetched trade whose `zerodha_order_id` is already persisted changes
nothing — the trade is skipped.  (ii) A store holding exactly one row
with a given broker order id still holds exactly one after any further
polling pass (the unique constraint plus the dedup check make a second
row impossible).  (iii) Re-running a completed polling pass over the
same fetched trade list is a strict no-op: zero new Trade rows, zero
new mirror trades, zero new publishes. -/
theorem poll_ingestion_idempotent :
    (∀ (env : PollEnv) (user : UserRec) (st : Store) (od : RawOrder)
       (pt0 : ParsedTrade) (rest : List RawOrder),
       parse_trade od = some pt0 →
       hasOid st pt0.zerodha_order_id = true →
       processTrades env user st (od :: rest) = processTrades env user st rest) ∧
    (∀ (env : PollEnv) (uid : Int) (remote : List RawOrder) (st : Store) (x : String),
       hasOid st x = true → oidCount st x = 1 →
       oidCount (poll_user_trades env uid remote st).1 x = 1) ∧
    (∀ (env : PollEnv) (uid : Int) (remote : List RawOrder) (st st1 : Store),
       poll_user_trades env uid remote st = (st1, false) →
       poll_user_trades env uid remote st1 = (st1, false)) := by
  refine ⟨?_, ?_, ?_⟩
  · intro env user st od pt0 rest hpar hd
    exact processTrades_cons_dup hpar hd
  · intro env uid remote st x hx hc
    obtain ⟨_, h2⟩ := poll_user_trades_oid_pres env uid remote st x hx
    rw [h2, hc]
  · exact poll_user_trades_rerun

/-- Witness for C1: skipping a duplicate `"OID1"` payload, count
preservation across a polling pass, and the rerun fixpoint of a
completed pass, all at concrete inputs. -/
theorem poll_ingestion_idempotent_witness :
    processTrades pollEnvTwoGroups userL stDup [rawCancelled] =
      processTrades pollEnvTwoGroups userL stDup [] ∧
    oidCount (poll_user_trades pollEnvTwoGroups 1 [rawCancelled] stDup).1 "OID1" = 1 ∧
    poll_user_trades pollEnvOneFollower 1 [rawCancelled] stRun = (stRun, false) := by
  refine ⟨?_, ?_, ?_⟩
  · exact poll_ingestion_idempotent.1 pollEnvTwoGroups userL stDup rawCancelled
      ptCancelled [] (by decide) (by decide)
  · exact poll_ingestion_idempotent.2.1 pollEnvTwoGroups 1 [rawCancelled] stDup "OID1"
      (by decide) (by decide)
  · exact poll_ingestion_idempotent.2.2 pollEnvOneFollower 1 [rawCancelled]
      Store.empty stRun (by decide)

/-- Counterexample to C4 as stated: a leader-trade event that creates
exactly one mirror trade (N = 1) creates zero durable Notification rows
— nothing in the polling/mirroring pipeline ever calls
`NotificationService.create_group_trade_notification` — and performs two
pub/sub publishes (the executor's `mirror_trade` message plus the
task's per-group `trade` message), not at most one. -/
theorem notification_fanout_refuted :
    ((poll_user_trades pollEnvOneFollower 1 [rawCancelled] Store.empty).1.trades.filter
        (fun t => t.parent_trade_id != none)).length = 1 ∧
    (poll_user_trades pollEnvOneFollower 1 [rawCancelled] Store.empty).1.notifications.length
        = 0 ∧
    (poll_user_trades pollEnvOneFollower 1 [rawCancelled] Store.empty).1.publishes.length
        = 2 :=
  ⟨by decide, by decide, by decide⟩

/-- C4 as amended: processing one active group creates no durable
Notification rows at all, and performs exactly `N + 1` pub/sub
publishes for `N` created mirror trades: one `mirror_trade` message per
mirror plus one `trade` message for the group. -/
theorem notification_fanout_amended (env : PollEnv) (pt : ParsedTrade) (st : Store)
    (g : GroupRec) (st1 : Store) (inserted : TradeRec)
    (hact : g.is_active = true)
    (hins : insertTrade st (mkGroupTrade pt g) = some (st1, inserted)) :
    (processGroups env pt st [g]).1.notifications = st.notifications ∧
    (processGroups env pt st [g]).1.publishes.length =
      st.publishes.length +
        (execute_mirror_trades env.exec inserted st1).1.length + 1 := by
  rw [processGroups_cons_ok hact hins]
  rw [show processGroups env pt (afterGroup env g st1 inserted) [] =
      (afterGroup env g st1 inserted, false) from rfl]
  obtain ⟨_, _, hs1⟩ := insertTrade_eq_some hins
  constructor
  · have h1 : (afterGroup env g st1 inserted).notifications =
        (execute_mirror_trades env.exec inserted st1).2.notifications := rfl
    rw [h1, execute_notifications, hs1]
  · have h1 : (afterGroup env g st1 inserted).publishes =
        (execute_mirror_trades env.exec inserted st1).2.publishes ++
          [(groupChannel g.id, "trade")] := rfl
    rw [h1, List.length_append, execute_pub_count, hs1]
    simp

/-- The parsed trade of the fan-out scenario, stamped with leader 1. -/
def ptC4 : ParsedTrade := { ptCancelled with leader_id := 1 }

/-- The leader row the fan-out scenario inserts. -/
def insC4 : TradeRec := { mkGroupTrade ptC4 gActive with id := 1 }

/-- The store after that insert. -/
def stC4 : Store :=
  { trades := [insC4], publishes := [], notifications := [], nextId := 2 }

/-- Witness for the amended C4 at the one-follower scenario. -/
theorem notification_fanout_amended_witness :
    (processGroups pollEnvOneFollower ptC4 Store.empty [gActive]).1.notifications =
      Store.empty.notifications ∧
    (processGroups pollEnvOneFollower ptC4 Store.empty [gActive]).1.publishes.length =
      Store.empty.publishes.length +
        (execute_mirror_trades pollEnvOneFollower.exec insC4 stC4).1.length + 1 :=
  notification_fanout_amended pollEnvOneFollower ptC4 Store.empty gActive stC4 insC4
    (by decide) (by decide)

/-- C5 (code bug): `poll_user_trades` iterates `user.led_groups`, but
the `User` model declares no `led_groups` relationship, so at runtime
the task raises `AttributeError` before persisting anything and retries
until exhaustion — no leader row, no orchestration, no publish.
Moreover, even under the intended relationship (modelled here from the
spec), the unique constraint on `zerodha_order_id` makes "one leader
Trade row per active led group" impossible: in a two-active-group run
the first group gets its row, the second group's insert violates the
constraint, the exception aborts the loop (flag `true`), and only group
10 is ever processed. -/
theorem poll_per_group_attr_missing :
    ("led_groups" ∉ userModelAttrs) ∧
    (poll_user_trades pollEnvTwoGroups 1 [rawCancelled] Store.empty).2 = true ∧
    ((poll_user_trades pollEnvTwoGroups 1 [rawCancelled] Store.empty).1.trades.map
        (fun t => t.group_id)) = [10] ∧
    (poll_user_trades pollEnvTwoGroups 1 [rawCancelled] Store.empty).1.publishes =
      [(groupChannel 10, "trade")] :=
  ⟨by decide, by decide, by decide, by decide⟩
